import Mathlib

/-!
Verification development for the adedonha-bot repository (a Telegram
"categories by letter" word game).  Python strings are embedded as `List Char`
(written `Str`), Python dicts as insertion-ordered association lists, and the
external AI oracle as an explicit function parameter.  Each definition below
names the source function it embeds and follows its control flow; ASCII-only
approximations of Python unicode predicates (str.strip, str.isalpha,
str.isdigit, upper/lower) are noted where they occur.
-/

namespace Adedonha

/-- Python strings, embedded as lists of characters. -/
abbrev Str := List Char

/-- Player ids (Python uses decimal-digit strings; the identity is opaque). -/
abbrev Player := Nat

/-- Whitespace test used by str.strip / str.splitlines / the regex class \s.
ASCII approximation of the Python unicode whitespace class. -/
def isPySpace (c : Char) : Bool := c.isWhitespace

/-- Python str.strip(): remove leading and trailing whitespace. -/
def pyStrip (s : Str) : Str :=
  ((s.dropWhile isPySpace).reverse.dropWhile isPySpace).reverse

/-- Python str.lower() (ASCII approximation). -/
def pyLower (s : Str) : Str := s.map Char.toLower

/-- Helper for str.splitlines: accumulates the current line (reversed) and
emits a line at each line boundary.  A trailing newline does not produce an
extra empty line, matching Python. -/
def splitlinesGo (cur : Str) : Str → List Str
  | [] => if cur.isEmpty then [] else [cur.reverse]
  | '\r' :: '\n' :: rest => cur.reverse :: splitlinesGo [] rest
  | '\n' :: rest => cur.reverse :: splitlinesGo [] rest
  | '\r' :: rest => cur.reverse :: splitlinesGo [] rest
  | c :: rest => splitlinesGo (c :: cur) rest

/-- Python str.splitlines() restricted to the line boundaries \n, \r and \r\n
(Python also splits on rarer unicode separators, which no claim exercises). -/
def splitlines (s : Str) : List Str := splitlinesGo [] s

/-- Python line.split(":", 1)[1]: everything after the first colon. -/
def afterColon (s : Str) : Str := (s.dropWhile (fun c => c ≠ ':')).drop 1

/-- The non-empty stripped lines of a text: models the list comprehension
`[ln.strip() for ln in text.splitlines() if ln.strip()]` shared by
utils.extract_answers_from_text, main.extract_answers_from_text, the inline
parser in game.run_game and both submission handlers. -/
def strippedLines (text : Str) : List Str :=
  ((splitlines text).map pyStrip).filter (fun l => !l.isEmpty)

/-- Per-line extraction of utils.extract_answers_from_text (src/utils.py
lines 62-67): take the part after the first colon if a colon is present,
otherwise the whole stripped line.  There is no ordinal handling here. -/
def utils_extract_line (line : Str) : Str :=
  if line.contains ':' then pyStrip (afterColon line) else pyStrip line

/-- The collection loop of utils.extract_answers_from_text (src/utils.py
lines 61-69): append one extracted answer per line and stop as soon as
`count` answers have been collected. -/
def utils_answersLoop (count : Nat) (acc : List Str) : List Str → List Str
  | [] => acc
  | l :: ls =>
    let acc2 := acc ++ [utils_extract_line l]
    if count ≤ acc2.length then acc2 else utils_answersLoop count acc2 ls

/-- utils.extract_answers_from_text (src/utils.py lines 59-72): split into
non-empty stripped lines, extract per line, pad with empty strings, and
return the first `count` entries. -/
def extract_answers_from_text (text : Str) (count : Nat) : List Str :=
  let answers := utils_answersLoop count [] (strippedLines text)
  (answers ++ List.replicate (count - answers.length) []).take count

/-- The regex `^\s*\d+[\.\)]\s*(.*)$` of main.extract_answers_from_text
(src/main.py line 159): optional leading whitespace, one or more digits, a
dot or closing parenthesis, optional whitespace, and the captured rest.
Returns the capture group when the line matches. -/
def matchOrdinal (line : Str) : Option Str :=
  let l1 := line.dropWhile isPySpace
  let ds := l1.takeWhile Char.isDigit
  if ds.isEmpty then none
  else
    match l1.dropWhile Char.isDigit with
    | c :: rest => if c = '.' || c = ')' then some (rest.dropWhile isPySpace) else none
    | [] => none

/-- Per-line extraction of main.extract_answers_from_text (src/main.py lines
152-163): colon split first, otherwise strip a leading ordinal such as
"1. " or "2) ", otherwise the whole stripped line. -/
def main_extract_line (line : Str) : Str :=
  if line.contains ':' then pyStrip (afterColon line)
  else
    match matchOrdinal line with
    | some rest => pyStrip rest
    | none => pyStrip line

/-- The collection loop of main.extract_answers_from_text (src/main.py lines
152-165), same break-after-append shape as the utils version. -/
def main_answersLoop (count : Nat) (acc : List Str) : List Str → List Str
  | [] => acc
  | l :: ls =>
    let acc2 := acc ++ [main_extract_line l]
    if count ≤ acc2.length then acc2 else main_answersLoop count acc2 ls

/-- main.extract_answers_from_text (src/main.py lines 148-168). -/
def main_extract_answers_from_text (text : Str) (count : Nat) : List Str :=
  let answers := main_answersLoop count [] (strippedLines text)
  (answers ++ List.replicate (count - answers.length) []).take count

/-- First-match association-list lookup: the embedding of Python dict reads
(`d.get(k)` and `k in d`).  Dicts are kept as insertion-ordered pair lists. -/
def lookupP {α β : Type} [DecidableEq α] : List (α × β) → α → Option β
  | [], _ => none
  | p :: rest, k => if p.1 = k then some p.2 else lookupP rest k

/-- Per-line extraction of the inline submission parser in game.run_game
(src/game.py lines 127-131): colon split only, identical to the utils
parser and with no ordinal handling. -/
def game_parse_line (line : Str) : Str :=
  if line.contains ':' then pyStrip (afterColon line) else pyStrip line

/-- The inline submission parser of game.run_game (src/game.py lines
124-133): parse the first `expected` non-empty lines, then pad with empty
strings up to `expected`. -/
def game_parse_submission (txt : Str) (expected : Nat) : List Str :=
  let ans := ((strippedLines txt).take expected).map game_parse_line
  ans ++ List.replicate (expected - ans.length) []

/-- The per-category frequency table of game.run_game (src/game.py lines
134-140); src/main.py lines 816-823 is the identical code.  For category
`idx`, the count under `key` is the number of players whose stripped answer
in that category is non-empty and lower-cases to `key`.  Note that no
validity information enters this table. -/
def per_cat_freq (parsed : List (Player × List Str)) (idx : Nat) (key : Str) : Nat :=
  parsed.countP (fun p =>
    !(pyStrip (p.2.getD idx [])).isEmpty && pyLower (pyStrip (p.2.getD idx [])) == key)

/-- Outcome of one OpenAI call made by ai.ai_validate, abstracting the
response-text parsing: the parsed verdict, or an exception from the call. -/
inductive AIReply
  | yes
  | no
  | err
deriving DecidableEq

/-- The AI client of src/ai.py as a black-box collaborator: category,
answer and round letter to a reply. -/
abbrev AIClient := Str → Str → Char → AIReply

/-- ai.ai_validate (src/ai.py lines 19-55): empty answers and answers whose
first character is not a letter or does not match the round letter are
rejected locally; with no configured client the answer is accepted
(permissive fallback, line 26); a client exception is also accepted
(line 55). -/
def ai_validate (client : Option AIClient) (category : Str) (answer : Str) (letter : Char) : Bool :=
  match answer with
  | [] => false
  | c :: rest =>
    if !c.isAlpha || c.toUpper != letter.toUpper then false
    else
      match client with
      | none => true
      | some f =>
        match f category (c :: rest) letter with
        | AIReply.yes => true
        | AIReply.no => false
        | AIReply.err => true

/-- The manual-override step of game.run_game (src/game.py lines 153-159):
the admin decision for the player is consulted only when ai_validate
returned False, and only an explicit accept (True) flips the verdict. -/
def effective_valid (client : Option AIClient) (man : Option Bool)
    (category a_clean : Str) (letter : Char) : Bool :=
  if ai_validate client category a_clean letter then true
  else man == some true

/-- Contribution of one answer slot in the scoring loop of game.run_game
(src/game.py lines 146-168): skip empty answers, skip answers failing the
letter check, skip answers rejected by ai_validate plus manual override;
otherwise 10 points at frequency one, else 5. -/
def answer_contrib (client : Option AIClient) (man : Option Bool)
    (freq : Nat → Str → Nat) (categories : List Str) (letter : Char)
    (idx : Nat) (a : Str) : Int :=
  match pyStrip a with
  | [] => 0
  | c :: rest =>
    if c.toUpper != letter.toUpper then 0
    else if !(effective_valid client man (categories.getD idx []) (c :: rest) letter) then 0
    else if freq idx (pyLower (c :: rest)) = 1 then 10 else 5

/-- Round points of one player in game.run_game (src/game.py lines 142-168):
the running total `pts` over the enumerated answer list. -/
def player_round_points (client : Option AIClient) (man : Option Bool)
    (freq : Nat → Str → Nat) (categories : List Str) (letter : Char)
    (answers : List Str) : Int :=
  (answers.enum.map (fun p => answer_contrib client man freq categories letter p.1 p.2)).sum

/-- The per-round score map of game.run_game (src/game.py lines 141-170),
restricted to the point totals (round_scores[uid]["points"]). -/
def round_scores (client : Option AIClient) (manual : List (Player × Bool))
    (parsed : List (Player × List Str)) (categories : List Str) (letter : Char) :
    List (Player × Int) :=
  parsed.map (fun p =>
    (p.1, player_round_points client (lookupP manual p.1) (per_cat_freq parsed) categories letter p.2))

/-- g["scores"].get(uid, 0): cumulative score read with default 0. -/
def scores_get (s : List (Player × Int)) (uid : Player) : Int :=
  (lookupP s uid).getD 0

/-- Python dict assignment g["scores"][uid] = v on the association list:
replace the first binding or append a new one. -/
def scores_set (s : List (Player × Int)) (uid : Player) (v : Int) : List (Player × Int) :=
  match s with
  | [] => [(uid, v)]
  | p :: rest => if p.1 = uid then (uid, v) :: rest else p :: scores_set rest uid v

/-- The cumulative update of game.run_game line 170, applied over a whole
round: g["scores"][uid] = g["scores"].get(uid, 0) + pts for every scored
player. -/
def apply_round (scores : List (Player × Int)) (rs : List (Player × Int)) :
    List (Player × Int) :=
  rs.foldl (fun acc p => scores_set acc p.1 (scores_get acc p.1 + p.2)) scores

/-- The composite slot validity of the game.run_game scoring loop: the
answer is scored at all iff it is non-empty after stripping, passes the
letter check, and survives ai_validate plus the manual override. -/
def slot_valid (client : Option AIClient) (man : Option Bool)
    (categories : List Str) (letter : Char) (idx : Nat) (a : Str) : Bool :=
  match pyStrip a with
  | [] => false
  | c :: rest =>
    c.toUpper == letter.toUpper &&
      effective_valid client man (categories.getD idx []) (c :: rest) letter

/-- Modelled from the spec (section 4.3 Scoring Engine): the per-slot point
value as the spec words it — 0 when the slot is not valid, the unique bonus
10 at frequency 1, the shared amount 5 otherwise.  Used to compare the code
scoring loop against the spec formula. -/
def spec_contrib (valid : Bool) (freq : Nat) : Int :=
  if !valid then 0 else if freq = 1 then 10 else 5

/-- Outcome of one OpenAI call of main.ai_correct_and_validate, abstracting
the JSON/heuristic response parsing of src/main.py lines 323-371: the final
(is_valid, corrected) pair, or an exception from the call. -/
inductive CorrectOutcome
  | reply (valid : Bool) (corrected : Str)
  | raiseErr
deriving DecidableEq

/-- The correction-capable AI client of src/main.py as a collaborator. -/
abbrev CorrectClient := Str → Str → Char → CorrectOutcome

/-- main.ai_correct_and_validate (src/main.py lines 289-374): empty input is
invalid; with no client only the first-letter check runs; a client reply
yields its verdict and corrected word; a client exception yields
(True, original) — the permissive fallback of line 374. -/
def ai_correct_and_validate (client : Option CorrectClient)
    (category answer : Str) (letter : Char) : Bool × Str :=
  match pyStrip answer with
  | [] => (false, [])
  | c :: rest =>
    match client with
    | none => (c.toUpper == letter.toUpper, c :: rest)
    | some f =>
      match f category (c :: rest) letter with
      | CorrectOutcome.reply v corr => (v, corr)
      | CorrectOutcome.raiseErr => (true, c :: rest)

/-- Contribution of one answer slot in the scoring loop of main.run_game
(src/main.py lines 831-861): skip empty answers; validity comes from
ai_correct_and_validate overridden in both directions by the manual admin
decision (lines 843-847); the frequency lookup uses the lower-cased
original answer (line 853), not the corrected word. -/
def main_answer_contrib (client : Option CorrectClient) (man : Option Bool)
    (freq : Nat → Str → Nat) (categories : List Str) (letter : Char)
    (idx : Nat) (a : Str) : Int :=
  match pyStrip a with
  | [] => 0
  | c :: rest =>
    let v0 := (ai_correct_and_validate client (categories.getD idx []) (c :: rest) letter).1
    let is_valid :=
      match man with
      | some true => true
      | some false => false
      | none => v0
    if !is_valid then 0
    else if freq idx (pyLower (c :: rest)) = 1 then 10 else 5

/-- Round points of one player in main.run_game (src/main.py lines 826-861). -/
def main_player_round_points (client : Option CorrectClient) (man : Option Bool)
    (freq : Nat → Str → Nat) (categories : List Str) (letter : Char)
    (answers : List Str) : Int :=
  (answers.enum.map (fun p => main_answer_contrib client man freq categories letter p.1 p.2)).sum

/-- The composite slot validity of the main.run_game scoring loop. -/
def main_slot_valid (client : Option CorrectClient) (man : Option Bool)
    (categories : List Str) (letter : Char) (idx : Nat) (a : Str) : Bool :=
  match pyStrip a with
  | [] => false
  | c :: rest =>
    match man with
    | some true => true
    | some false => false
    | none => (ai_correct_and_validate client (categories.getD idx []) (c :: rest) letter).1

/-- The local word database of src/db.py (check_word) as a collaborator:
answer, category and letter to known-valid. -/
abbrev WordDB := Str → Str → Char → Bool

/-- Outcome of one OpenAI call of ai_validation.batch_validate, abstracting
the JSON/line response parsing of src/ai_validation.py lines 79-111 into
the parsed index-to-bool map (possibly partial or empty), or an exception. -/
inductive AttemptOutcome
  | raiseErr
  | ok (parsed : List (Nat × Bool))
deriving DecidableEq

/-- AI_MAX_RETRIES from src/config.py line 46. -/
def AI_MAX_RETRIES : Nat := 2

/-- The pre-check of ai_validation.batch_validate (src/ai_validation.py
lines 27-35): out-of-range or empty answers and answers failing the
first-letter check resolve to False; everything else is undecided. -/
def pre_result (letter : Char) (answers : List Str) (i : Nat) : Option Bool :=
  match (if i < answers.length then pyStrip (answers.getD i []) else []) with
  | [] => some false
  | c :: _ => if !c.isAlpha || c.toUpper != letter.toUpper then some false else none

/-- The local resolution stage of batch_validate: the pre-check (lines
27-35) followed by the local DB lookup (lines 38-45).  `none` means the
slot joins indexes_to_ask. -/
def resolved_local (db : WordDB) (letter : Char) (categories answers : List Str)
    (i : Nat) : Option Bool :=
  match pre_result letter answers i with
  | some b => some b
  | none =>
    if db (answers.getD i []) (categories.getD i []) letter then some true else none

/-- The retry loop of batch_validate (src/ai_validation.py lines 74-130):
at most `fuel` attempts are made (fuel = AI_MAX_RETRIES + 1, since the
loop runs while attempt <= AI_MAX_RETRIES); the first non-raising attempt
returns its parsed map. -/
def first_ok : Nat → List AttemptOutcome → Option (List (Nat × Bool))
  | 0, _ => none
  | _ + 1, [] => none
  | k + 1, AttemptOutcome.raiseErr :: rest => first_ok k rest
  | _ + 1, AttemptOutcome.ok parsed :: _ => some parsed

/-- ai_validation.batch_validate (src/ai_validation.py lines 19-139), value
of one result slot.  Locally resolved slots keep their value; with no
client the remaining slots are accepted (lines 47-56); with a client, a
successful attempt maps each remaining slot through the parsed response
with default False (lines 112-119); when every attempt raises, the final
fallback accepts every remaining slot (lines 132-138). -/
def bv_slot (maxRetries : Nat) (clientPresent : Bool) (db : WordDB)
    (letter : Char) (categories answers : List Str)
    (attempts : List AttemptOutcome) (i : Nat) : Bool :=
  match resolved_local db letter categories answers i with
  | some b => b
  | none =>
    if !clientPresent then true
    else
      match first_ok (maxRetries + 1) attempts with
      | some parsed => (lookupP parsed i).getD false
      | none => true

/-- The result dict of batch_validate, one entry per category index. -/
def batch_validate (maxRetries : Nat) (clientPresent : Bool) (db : WordDB)
    (letter : Char) (categories answers : List Str)
    (attempts : List AttemptOutcome) : List (Nat × Bool) :=
  (List.range categories.length).map (fun i =>
    (i, bv_slot maxRetries clientPresent db letter categories answers attempts i))

/-- The two game-state values submission handling distinguishes
(g["state"] is the string "lobby" or "running" in the source). -/
inductive GState
  | lobby
  | running
deriving DecidableEq

/-- The slice of the per-chat game dict that the submission handlers read
and write (src/handlers.py lines 320-362, src/main.py lines 918-962).
manualValidationMsg models whether the manual-validation message has been
created (g["manual_validation_msg_id"] is not None). -/
structure GameState where
  gstate : GState
  players : List Player
  submissions : List (Player × Str)
  current_categories : List Str
  categories_per_round : Nat
  aiClientPresent : Bool
  manualValidationMsg : Bool
deriving DecidableEq

/-- The line test of handlers.submission_handler (src/handlers.py lines
341-345): the line contains a colon, or matches the regex `^[0-9]+\.`
(one or more ASCII digits followed by a dot, anchored at the start). -/
def qualifies_handlers (ln : Str) : Bool :=
  ln.contains ':' ||
    (let ds := ln.takeWhile Char.isDigit
     !ds.isEmpty && (ln.drop ds.length).head? == some '.')

/-- The line test of main.submission_handler (src/main.py lines 940-944):
the line contains a colon, or matches the regex `^\s*\d+[\.\)]\s*`. -/
def qualifies_main (ln : Str) : Bool :=
  ln.contains ':' || (matchOrdinal ln).isSome

/-- answer_lines of handlers.submission_handler (src/handlers.py lines
339-345): the number of non-empty stripped lines passing the line test. -/
def count_answer_lines_handlers (text : Str) : Nat :=
  (strippedLines text).countP qualifies_handlers

/-- answer_lines of main.submission_handler (src/main.py lines 938-944). -/
def count_answer_lines_main (text : Str) : Nat :=
  (strippedLines text).countP qualifies_main

/-- needed of both submission handlers:
`len(g.get("current_categories", [])) or g.get("categories_per_round", 0)`
— the category count for this round, falling back when the list is empty. -/
def needed (g : GameState) : Nat :=
  if g.current_categories.length = 0 then g.categories_per_round
  else g.current_categories.length

/-- The state transition of handlers.submission_handler (src/handlers.py
lines 320-362): reject when the game is not running, the sender is not a
player, or the sender already submitted; ignore messages with fewer
qualifying lines than `needed`; otherwise register the raw text and, when
no AI client is configured and no manual-validation message exists yet,
create that message. -/
def submission_handler (g : GameState) (uid : Player) (text : Str) : GameState :=
  if g.gstate ≠ GState.running then g
  else if uid ∉ g.players then g
  else if (lookupP g.submissions uid).isSome then g
  else if count_answer_lines_handlers text < needed g then g
  else
    let g2 := { g with submissions := g.submissions ++ [(uid, text)] }
    if !g2.aiClientPresent && !g2.manualValidationMsg then
      { g2 with manualValidationMsg := true }
    else g2

/-- The state transition of main.submission_handler (src/main.py lines
918-962); identical shape, with the main-version line test. -/
def main_submission_handler (g : GameState) (uid : Player) (text : Str) : GameState :=
  if g.gstate ≠ GState.running then g
  else if uid ∉ g.players then g
  else if (lookupP g.submissions uid).isSome then g
  else if count_answer_lines_main text < needed g then g
  else
    let g2 := { g with submissions := g.submissions ++ [(uid, text)] }
    if !g2.aiClientPresent && !g2.manualValidationMsg then
      { g2 with manualValidationMsg := true }
    else g2

/-! ### Concrete fixtures used by counterexamples and witnesses -/

/-- A word database that knows no word (check_word always misses). -/
def dbEmpty : WordDB := fun _ _ _ => false

/-- An AI client whose every call raises. -/
def clientErr : AIClient := fun _ _ _ => AIReply.err

/-- One-player round: player 1 answered "dog" in the single category. -/
def parsedC1 : List (Player × List Str) := [(1, [("dog".toList)])]

/-- The single-category list used by small examples. -/
def catsAnimal : List Str := [("Animal".toList)]

/-! ### Helper lemmas -/

theorem pad_take_length (xs : List Str) (count : Nat) :
    ((xs ++ List.replicate (count - xs.length) ([] : Str)).take count).length = count := by
  simp only [List.length_take, List.length_append, List.length_replicate]
  omega

theorem lookupP_map_self {β : Type} (f : Nat → β) :
    ∀ (l : List Nat) (i : Nat), i ∈ l →
      lookupP (l.map (fun j => (j, f j))) i = some (f i) := by
  intro l
  induction l with
  | nil => intro i h; cases h
  | cons j rest ih =>
    intro i h
    simp only [List.map_cons, lookupP]
    by_cases hj : j = i
    · subst hj; simp
    · rw [if_neg hj]
      rcases List.mem_cons.mp h with h1 | h2
      · exact absurd h1.symm hj
      · exact ih i h2

theorem contains_eq_false_of_forall (l : Str) (c : Char) (h : ∀ x ∈ l, x ≠ c) :
    l.contains c = false := by
  cases hc : l.contains c
  · rfl
  · exfalso
    have : c ∈ l := by
      have := hc
      simp only [List.contains, List.elem_eq_mem, decide_eq_true_eq] at this
      exact this
    exact h c this rfl

theorem isPySpace_false_of_isDigit (c : Char) (h : c.isDigit = true) :
    isPySpace c = false := by
  unfold isPySpace
  cases hw : c.isWhitespace
  · rfl
  · exfalso
    have hd : ('0' ≤ c ∧ c ≤ '9') := by
      have := h
      simp only [Char.isDigit, Bool.and_eq_true, decide_eq_true_eq] at this
      exact this
    have hws : ((c = ' ' ∨ c = '\t') ∨ c = '\r') ∨ c = '\n' := by
      have := hw
      simp only [Char.isWhitespace, Bool.or_eq_true, decide_eq_true_eq] at this
      exact this
    rcases hws with ((h1 | h1) | h1) | h1 <;> rw [h1] at hd <;>
      exact absurd hd (by decide)

theorem takeWhile_append_eq (p : Char → Bool) :
    ∀ (xs : Str) (y : Char) (ys : Str), (∀ x ∈ xs, p x = true) → p y = false →
      (xs ++ y :: ys).takeWhile p = xs ∧ (xs ++ y :: ys).dropWhile p = y :: ys := by
  intro xs
  induction xs with
  | nil =>
    intro y ys _ hy
    constructor
    · simp [List.takeWhile_cons, hy]
    · simp [List.dropWhile_cons, hy]
  | cons a rest ih =>
    intro y ys hall hy
    have ha : p a = true := hall a (by simp)
    have hrest : ∀ x ∈ rest, p x = true := fun x hx => hall x (by simp [hx])
    have h2 := ih y ys hrest hy
    constructor
    · simp [List.takeWhile_cons, ha, h2.1]
    · simp [List.dropWhile_cons, ha, h2.2]

theorem dropWhile_eq_self_of_head (p : Char → Bool) (l : Str)
    (h : ∀ c, l.head? = some c → p c = false) : l.dropWhile p = l := by
  cases l with
  | nil => rfl
  | cons a rest => simp [List.dropWhile_cons, h a rfl]

theorem pyStrip_eq_self (l : Str)
    (h1 : ∀ c, l.head? = some c → isPySpace c = false)
    (h2 : ∀ c, l.getLast? = some c → isPySpace c = false) : pyStrip l = l := by
  unfold pyStrip
  rw [dropWhile_eq_self_of_head _ _ h1]
  rw [dropWhile_eq_self_of_head _ _ (fun c hc => h2 c (by rwa [← List.head?_reverse]))]
  exact List.reverse_reverse l

theorem lookupP_mem {α β : Type} [DecidableEq α] :
    ∀ (l : List (α × β)) (k : α) (v : β), lookupP l k = some v → (k, v) ∈ l := by
  intro l
  induction l with
  | nil => intro k v h; cases h
  | cons p rest ih =>
    intro k v h
    unfold lookupP at h
    by_cases hp : p.1 = k
    · rw [if_pos hp] at h
      injection h with h2
      have hpk : p = (k, v) := by
        obtain ⟨q, w⟩ := p
        simp only at hp h2
        rw [hp, h2]
      rw [hpk]
      exact List.mem_cons_self _ _
    · rw [if_neg hp] at h
      exact List.mem_cons_of_mem p (ih k v h)

/-- A member with a non-empty stripped answer makes its normalized key
count at least once in the frequency table. -/
theorem per_cat_freq_pos (parsed : List (Player × List Str)) (idx : Nat)
    (p : Player × List Str) (hp : p ∈ parsed)
    (hne : pyStrip (p.2.getD idx []) ≠ []) :
    1 ≤ per_cat_freq parsed idx (pyLower (pyStrip (p.2.getD idx []))) := by
  apply Nat.succ_le_of_lt
  apply List.countP_pos_iff.mpr
  refine ⟨p, hp, ?_⟩
  simp only [Bool.and_eq_true, Bool.not_eq_true', beq_iff_eq]
  constructor
  · cases hs : pyStrip (p.2.getD idx []) with
    | nil => exact absurd hs hne
    | cons a rest => rfl
  · trivial

/-- The code contribution of one slot in game.run_game equals the spec
formula applied to the composite slot validity and the frequency of the
normalized answer. -/
theorem answer_contrib_eq_spec (client : Option AIClient) (man : Option Bool)
    (freq : Nat → Str → Nat) (categories : List Str) (letter : Char)
    (idx : Nat) (a : Str) :
    answer_contrib client man freq categories letter idx a
      = spec_contrib (slot_valid client man categories letter idx a)
          (freq idx (pyLower (pyStrip a))) := by
  unfold answer_contrib slot_valid spec_contrib
  cases hs : pyStrip a with
  | nil => simp
  | cons c rest =>
    by_cases hl : c.toUpper = letter.toUpper
    · by_cases he :
        effective_valid client man (categories.getD idx []) (c :: rest) letter = true
      · simp [hl, he]
      · simp [hl, he]
    · simp [hl]

/-- The code contribution of one slot in main.run_game equals the spec
formula applied to the main-draft slot validity. -/
theorem main_answer_contrib_eq_spec (client : Option CorrectClient) (man : Option Bool)
    (freq : Nat → Str → Nat) (categories : List Str) (letter : Char)
    (idx : Nat) (a : Str) :
    main_answer_contrib client man freq categories letter idx a
      = spec_contrib (main_slot_valid client man categories letter idx a)
          (freq idx (pyLower (pyStrip a))) := by
  unfold main_answer_contrib main_slot_valid spec_contrib
  cases hs : pyStrip a with
  | nil => simp
  | cons c rest =>
    cases man with
    | none =>
      by_cases hv :
        (ai_correct_and_validate client (categories.getD idx []) (c :: rest) letter).1 = true
      · simp [hv]
      · simp [hv]
    | some b => cases b <;> simp

theorem answer_contrib_nonneg (client : Option AIClient) (man : Option Bool)
    (freq : Nat → Str → Nat) (categories : List Str) (letter : Char)
    (idx : Nat) (a : Str) :
    0 ≤ answer_contrib client man freq categories letter idx a := by
  rw [answer_contrib_eq_spec]
  unfold spec_contrib
  split_ifs <;> norm_num

theorem main_answer_contrib_nonneg (client : Option CorrectClient) (man : Option Bool)
    (freq : Nat → Str → Nat) (categories : List Str) (letter : Char)
    (idx : Nat) (a : Str) :
    0 ≤ main_answer_contrib client man freq categories letter idx a := by
  rw [main_answer_contrib_eq_spec]
  unfold spec_contrib
  split_ifs <;> norm_num

theorem player_round_points_nonneg (client : Option AIClient) (man : Option Bool)
    (freq : Nat → Str → Nat) (categories : List Str) (letter : Char)
    (answers : List Str) :
    0 ≤ player_round_points client man freq categories letter answers := by
  unfold player_round_points
  apply List.sum_nonneg
  intro x hx
  obtain ⟨p, _, rfl⟩ := List.mem_map.mp hx
  exact answer_contrib_nonneg client man freq categories letter p.1 p.2

theorem main_player_round_points_nonneg (client : Option CorrectClient) (man : Option Bool)
    (freq : Nat → Str → Nat) (categories : List Str) (letter : Char)
    (answers : List Str) :
    0 ≤ main_player_round_points client man freq categories letter answers := by
  unfold main_player_round_points
  apply List.sum_nonneg
  intro x hx
  obtain ⟨p, _, rfl⟩ := List.mem_map.mp hx
  exact main_answer_contrib_nonneg client man freq categories letter p.1 p.2

theorem scores_get_set (s : List (Player × Int)) (uid : Player) (v : Int) (x : Player) :
    scores_get (scores_set s uid v) x = if x = uid then v else scores_get s x := by
  induction s with
  | nil =>
    by_cases hx : x = uid
    · subst hx
      simp [scores_set, scores_get, lookupP]
    · have hux : ¬ uid = x := fun h => hx h.symm
      simp [scores_set, scores_get, lookupP, hx, hux]
  | cons p rest ih =>
    obtain ⟨q, w⟩ := p
    by_cases hq : q = uid
    · subst hq
      simp only [scores_set, if_pos rfl]
      by_cases hx : x = q
      · subst hx
        simp [scores_get, lookupP]
      · have hqx : ¬ q = x := fun h => hx h.symm
        simp [scores_get, lookupP, hx, hqx]
    · simp only [scores_set, if_neg hq]
      by_cases hqx : q = x
      · subst hqx
        have hx : ¬ q = uid := hq
        simp [scores_get, lookupP, hx]
      · have hstep : scores_get ((q, w) :: scores_set rest uid v) x
            = scores_get (scores_set rest uid v) x := by
          simp [scores_get, lookupP, hqx]
        rw [hstep, ih]
        by_cases hx : x = uid
        · rw [if_pos hx, if_pos hx]
        · rw [if_neg hx, if_neg hx]
          simp [scores_get, lookupP, hqx]

theorem apply_round_get_le :
    ∀ (rs : List (Player × Int)) (s : List (Player × Int)) (uid : Player),
      (∀ p ∈ rs, 0 ≤ p.2) →
      scores_get s uid ≤ scores_get (apply_round s rs) uid := by
  intro rs
  induction rs with
  | nil => intro s uid _; simp [apply_round]
  | cons p rest ih =>
    intro s uid h
    have h0 : 0 ≤ p.2 := h p (by simp)
    have hrest : ∀ q ∈ rest, 0 ≤ q.2 := fun q hq => h q (by simp [hq])
    unfold apply_round
    rw [List.foldl_cons]
    have step := ih (scores_set s p.1 (scores_get s p.1 + p.2)) uid hrest
    refine le_trans ?_ step
    rw [scores_get_set]
    by_cases hx : uid = p.1
    · rw [if_pos hx, hx]
      linarith
    · rw [if_neg hx]

theorem apply_round_get_of_absent :
    ∀ (rs : List (Player × Int)) (s : List (Player × Int)) (uid : Player),
      (∀ p ∈ rs, p.1 ≠ uid) →
      scores_get (apply_round s rs) uid = scores_get s uid := by
  intro rs
  induction rs with
  | nil => intro s uid _; simp [apply_round]
  | cons p rest ih =>
    intro s uid h
    have h0 : p.1 ≠ uid := h p (by simp)
    have hrest : ∀ q ∈ rest, q.1 ≠ uid := fun q hq => h q (by simp [hq])
    unfold apply_round
    rw [List.foldl_cons]
    have step := ih (scores_set s p.1 (scores_get s p.1 + p.2)) uid hrest
    rw [apply_round] at step
    rw [step, scores_get_set, if_neg (fun hx => h0 hx.symm)]

theorem points_zero_of_all_invalid (client : Option AIClient) (man : Option Bool)
    (freq : Nat → Str → Nat) (categories : List Str) (letter : Char)
    (answers : List Str)
    (h : ∀ (i : Nat) (a : Str), (i, a) ∈ answers.enum →
      slot_valid client man categories letter i a = false) :
    player_round_points client man freq categories letter answers = 0 := by
  unfold player_round_points
  apply List.sum_eq_zero
  intro x hx
  obtain ⟨p, hp, rfl⟩ := List.mem_map.mp hx
  rw [answer_contrib_eq_spec, h p.1 p.2 (by simpa using hp)]
  rfl

/-! ### Claim theorems -/

/-- C5: the Answer Parser is total — for every input text and every
expectedCount, both drafts of extract_answers_from_text return a list of
exactly expectedCount strings (padding and truncating as needed), and being
total Lean functions they never raise. -/
theorem C5_parser_total : ∀ (text : Str) (count : Nat),
    (extract_answers_from_text text count).length = count ∧
    (main_extract_answers_from_text text count).length = count := by
  intro text count
  exact ⟨pad_take_length _ _, pad_take_length _ _⟩

/-- C7: in batch_validate, a slot that survives local resolution (pre-check
and DB lookup) but is absent from the parsed Oracle response of a
successful attempt resolves to invalid, never to valid. -/
theorem C7_unresolved_slots_invalid :
    ∀ (maxRetries : Nat) (db : WordDB) (letter : Char) (categories answers : List Str)
      (attempts : List AttemptOutcome) (parsed : List (Nat × Bool)) (i : Nat),
      i < categories.length →
      resolved_local db letter categories answers i = none →
      first_ok (maxRetries + 1) attempts = some parsed →
      lookupP parsed i = none →
      lookupP (batch_validate maxRetries true db letter categories answers attempts) i
        = some false := by
  intro maxRetries db letter categories answers attempts parsed i hi hloc hfo hlk
  unfold batch_validate
  rw [lookupP_map_self _ (List.range categories.length) i (List.mem_range.mpr hi)]
  unfold bv_slot
  rw [hloc, hfo]
  simp [hlk]

/-- C7 witness: a concrete partial response.  Category list has two slots,
slot 0 answered, slot 1 (requested but unanswered) resolves to false. -/
theorem C7_witness :
    lookupP (batch_validate AI_MAX_RETRIES true dbEmpty 'C'
      [("Animal".toList), ("Name".toList)] [("Cat".toList), ("Carla".toList)]
      [AttemptOutcome.ok [(0, true)]]) 1 = some false :=
  C7_unresolved_slots_invalid AI_MAX_RETRIES dbEmpty 'C'
    [("Animal".toList), ("Name".toList)] [("Cat".toList), ("Carla".toList)]
    [AttemptOutcome.ok [(0, true)]] [(0, true)] 1
    (by decide) (by decide) (by decide) (by decide)

/-- C2 counterexample: with the configured retry budget exhausted by an
Oracle that raises on every attempt, batch_validate marks the surviving
answer valid automatically, and ai_validate returns True when the Oracle
call raises — refuting the claim that an Oracle failure never causes an
answer to be automatically treated as valid. -/
theorem C2_counterexample :
    lookupP (batch_validate AI_MAX_RETRIES true dbEmpty 'C'
      [("Animal".toList)] [("Cat".toList)]
      [AttemptOutcome.raiseErr, AttemptOutcome.raiseErr, AttemptOutcome.raiseErr]) 0
      = some true
    ∧ ai_validate (some clientErr) ("Animal".toList) ("Cat".toList) 'C' = true := by
  constructor
  · rfl
  · rfl

/-- C2 (amended): on a whole-room Oracle outage — every attempt raises until
the retry budget is exhausted — the coordinator does not suspend scoring:
batch_validate automatically accepts every slot that survived local
resolution, and ai_validate accepts the answer when the single call raises.
No manual-validation event is tied to Oracle failure (the manual panel is
created only when no AI client is configured at all). -/
theorem C2_outage_auto_accepts :
    (∀ (maxRetries : Nat) (db : WordDB) (letter : Char) (categories answers : List Str)
       (attempts : List AttemptOutcome) (i : Nat),
       first_ok (maxRetries + 1) attempts = none →
       i < categories.length →
       resolved_local db letter categories answers i = none →
       lookupP (batch_validate maxRetries true db letter categories answers attempts) i
         = some true)
    ∧
    (∀ (f : AIClient) (category : Str) (c : Char) (rest : Str) (letter : Char),
       c.isAlpha = true → c.toUpper = letter.toUpper →
       f category (c :: rest) letter = AIReply.err →
       ai_validate (some f) category (c :: rest) letter = true) := by
  constructor
  · intro maxRetries db letter categories answers attempts i hfo hi hloc
    unfold batch_validate
    rw [lookupP_map_self _ (List.range categories.length) i (List.mem_range.mpr hi)]
    unfold bv_slot
    rw [hloc, hfo]
    simp
  · intro f category c rest letter h1 h2 h3
    simp [ai_validate, h1, h2, h3]

/-- C2 witness: the amended theorem applied at a concrete outage. -/
theorem C2_witness :
    lookupP (batch_validate AI_MAX_RETRIES true dbEmpty 'C'
      [("Animal".toList)] [("Cat".toList)] [AttemptOutcome.raiseErr]) 0 = some true
    ∧ ai_validate (some clientErr) ("Animal".toList) ("Cat".toList) 'C' = true :=
  ⟨C2_outage_auto_accepts.1 AI_MAX_RETRIES dbEmpty 'C'
      [("Animal".toList)] [("Cat".toList)] [AttemptOutcome.raiseErr] 0
      (by decide) (by decide) (by decide),
   C2_outage_auto_accepts.2 clientErr ("Animal".toList) 'C' ("at".toList) 'C'
      (by decide) (by decide) rfl⟩

/-- C1 counterexample: player 1 answered "dog" under round letter C.  The
answer fails validation (wrong starting letter: its scoring contribution is
0 and slot validity is false), yet the frequency table counts it — refuting
the claim that only valid answers enter the frequency table. -/
theorem C1_counterexample :
    per_cat_freq parsedC1 0 ("dog".toList) = 1 ∧
    slot_valid none none catsAnimal 'C' 0 ("dog".toList) = false ∧
    answer_contrib none none (per_cat_freq parsedC1) catsAnimal 'C' 0 ("dog".toList) = 0 := by
  refine ⟨rfl, rfl, rfl⟩

/-- C1 (amended): the per-category frequency table is keyed by the trimmed,
lower-cased answer text and counts every answer that is non-empty after
trimming, with no validity filter: in particular any player with a
non-empty answer contributes to the count under its normalized key, whether
or not that answer is valid. -/
theorem C1_freq_counts_all_nonempty :
    (∀ (parsed : List (Player × List Str)) (idx : Nat) (key : Str),
       per_cat_freq parsed idx key =
         (parsed.filter (fun p =>
           !(pyStrip (p.2.getD idx [])).isEmpty
             && pyLower (pyStrip (p.2.getD idx [])) == key)).length)
    ∧
    (∀ (parsed : List (Player × List Str)) (idx : Nat) (p : Player × List Str),
       p ∈ parsed → pyStrip (p.2.getD idx []) ≠ [] →
       1 ≤ per_cat_freq parsed idx (pyLower (pyStrip (p.2.getD idx [])))) := by
  constructor
  · intro parsed idx key
    exact List.countP_eq_length_filter _ _
  · intro parsed idx p hp hne
    apply Nat.succ_le_of_lt
    apply List.countP_pos_iff.mpr
    refine ⟨p, hp, ?_⟩
    simp only [Bool.and_eq_true, Bool.not_eq_true', beq_iff_eq]
    constructor
    · cases hs : pyStrip (p.2.getD idx []) with
      | nil => exact absurd hs hne
      | cons a rest => rfl
    · trivial

/-- C1 witness: the amended theorem applied at the counterexample round. -/
theorem C1_witness :
    1 ≤ per_cat_freq parsedC1 0 (pyLower (pyStrip ((([("dog".toList)] : List Str)).getD 0 []))) :=
  C1_freq_counts_all_nonempty.2 parsedC1 0 (1, [("dog".toList)]) (by decide) (by decide)

/-- C6 counterexample: on the single line "3. answer" (no colon), the
utils.py parser returns the full line including the ordinal prefix, not
"answer"; only the main.py draft extracts the value portion — refuting the
claim for the cited utils.py parser. -/
theorem C6_counterexample :
    extract_answers_from_text ("3. answer".toList) 1 = [("3. answer".toList)] ∧
    extract_answers_from_text ("3. answer".toList) 1 ≠ [("answer".toList)] ∧
    main_extract_answers_from_text ("3. answer".toList) 1 = [("answer".toList)] := by
  refine ⟨by decide, by decide, by decide⟩

/-- C6 (amended): for a line consisting of a digit ordinal, a dot, a space
and an answer with no colon, the main.py parser extracts the value portion
(the answer), while the utils.py parser — which only handles the colon
delimiter — returns the full trimmed line including the ordinal prefix. -/
theorem C6_ordinal_line_parsing :
    ∀ (ds rest : Str),
      ds ≠ [] →
      (∀ c ∈ ds, c.isDigit = true) →
      rest ≠ [] →
      (∀ c ∈ rest, c ≠ ':') →
      (∀ c, rest.head? = some c → isPySpace c = false) →
      (∀ c, rest.getLast? = some c → isPySpace c = false) →
      main_extract_line (ds ++ '.' :: ' ' :: rest) = rest ∧
      utils_extract_line (ds ++ '.' :: ' ' :: rest) = ds ++ '.' :: ' ' :: rest := by
  intro ds rest hne hds hrestne hnocolon hhead hlast
  obtain ⟨d, ds2, rfl⟩ : ∃ d ds2, ds = d :: ds2 := by
    cases ds with
    | nil => exact absurd rfl hne
    | cons d ds2 => exact ⟨d, ds2, rfl⟩
  have hd : d.isDigit = true := hds d (by simp)
  have hcol : ((d :: ds2) ++ '.' :: ' ' :: rest).contains ':' = false := by
    apply contains_eq_false_of_forall
    intro x hx
    rcases List.mem_append.mp hx with hx1 | hx2
    · intro heq
      have := hds x hx1
      rw [heq] at this
      exact absurd this (by decide)
    · rcases List.mem_cons.mp hx2 with h1 | h2
      · rw [h1]; decide
      · rcases List.mem_cons.mp h2 with h3 | h4
        · rw [h3]; decide
        · exact hnocolon x h4
  have hdrop : ((d :: ds2) ++ '.' :: ' ' :: rest).dropWhile isPySpace
      = (d :: ds2) ++ '.' :: ' ' :: rest := by
    apply dropWhile_eq_self_of_head
    intro c hc
    simp only [List.cons_append, List.head?_cons, Option.some.injEq] at hc
    rw [← hc]
    exact isPySpace_false_of_isDigit d hd
  have htw := takeWhile_append_eq Char.isDigit (d :: ds2) '.' (' ' :: rest) hds (by decide)
  have hrdrop : rest.dropWhile isPySpace = rest := dropWhile_eq_self_of_head _ _ hhead
  have hrstrip : pyStrip rest = rest := pyStrip_eq_self rest hhead hlast
  have hmatch : matchOrdinal ((d :: ds2) ++ '.' :: ' ' :: rest) = some rest := by
    unfold matchOrdinal
    simp only [hdrop, htw.1, htw.2, List.isEmpty_cons, List.dropWhile_cons]
    norm_num
    simp [isPySpace, hrdrop]
  constructor
  · unfold main_extract_line
    rw [hcol, hmatch]
    simp [hrstrip]
  · unfold utils_extract_line
    rw [hcol]
    simp only [Bool.false_eq_true, if_false]
    apply pyStrip_eq_self
    · intro c hc
      simp only [List.cons_append, List.head?_cons, Option.some.injEq] at hc
      rw [← hc]
      exact isPySpace_false_of_isDigit d hd
    · intro c hc
      have hre : ((d :: ds2) ++ '.' :: ' ' :: rest)
          = (((d :: ds2) ++ ['.', ' ']) ++ rest) := by simp
      rw [hre, List.getLast?_append_of_ne_nil _ hrestne] at hc
      exact hlast c hc

/-- C6 witness: the amended theorem applied to the line "3. answer". -/
theorem C6_witness :
    main_extract_line (("3".toList) ++ '.' :: ' ' :: ("answer".toList)) = ("answer".toList) ∧
    utils_extract_line (("3".toList) ++ '.' :: ' ' :: ("answer".toList))
      = ("3".toList) ++ '.' :: ' ' :: ("answer".toList) :=
  C6_ordinal_line_parsing ("3".toList) ("answer".toList)
    (by decide) (by decide) (by decide) (by decide) (by decide) (by decide)

/-- A running game with players 1 and 2 where player 1 already submitted;
used by the handler witnesses. -/
def gRun : GameState :=
  { gstate := GState.running
    players := [1, 2]
    submissions := [(1, ("a: x\nb: y".toList))]
    current_categories := [("Name".toList), ("Animal".toList)]
    categories_per_round := 5
    aiClientPresent := false
    manualValidationMsg := true }

/-- C4: submission acceptance is idempotent — once a player has an entry in
the round submissions, every further submission attempt by that player
leaves the whole game state (stored raw text included) unchanged, in both
handler drafts, so the state after 1 or N attempts is identical. -/
theorem C4_submission_idempotent :
    ∀ (g : GameState) (uid : Player),
      (lookupP g.submissions uid).isSome = true →
      (∀ text : Str,
        submission_handler g uid text = g ∧ main_submission_handler g uid text = g) ∧
      (∀ texts : List Str, texts.foldl (fun s t => submission_handler s uid t) g = g) ∧
      (∀ texts : List Str, texts.foldl (fun s t => main_submission_handler s uid t) g = g) := by
  intro g uid hsome
  have hstep : ∀ text : Str, submission_handler g uid text = g := by
    intro text
    unfold submission_handler
    split_ifs with h1 h2 <;> rfl
  have hstepm : ∀ text : Str, main_submission_handler g uid text = g := by
    intro text
    unfold main_submission_handler
    split_ifs with h1 h2 <;> rfl
  refine ⟨fun text => ⟨hstep text, hstepm text⟩, ?_, ?_⟩
  · intro texts
    induction texts with
    | nil => rfl
    | cons t ts ih => rw [List.foldl_cons, hstep t, ih]
  · intro texts
    induction texts with
    | nil => rfl
    | cons t ts ih => rw [List.foldl_cons, hstepm t, ih]

/-- C4 witness: in the concrete running game gRun, player 1 has already
submitted, and further attempts leave the state unchanged. -/
theorem C4_witness :
    (submission_handler gRun 1 ("z".toList) = gRun ∧
      main_submission_handler gRun 1 ("z".toList) = gRun) ∧
    [("w".toList), ("1: q\n2: r".toList)].foldl
      (fun s t => submission_handler s 1 t) gRun = gRun := by
  have h := C4_submission_idempotent gRun 1 (by decide)
  exact ⟨h.1 ("z".toList), h.2.1 [("w".toList), ("1: q\n2: r".toList)]⟩

/-- C9: during a round with a non-empty category snapshot, an inbound text
is registered as a submission only if it has at least N qualifying lines
(containing a colon, or starting with a digit ordinal), where N is the
number of categories this round; a message with fewer qualifying lines
leaves the entire game state unchanged.  Proved for both handler drafts. -/
theorem C9_submission_gating :
    ∀ (g : GameState) (uid : Player) (text : Str),
      g.current_categories ≠ [] →
      (count_answer_lines_handlers text < g.current_categories.length →
        submission_handler g uid text = g) ∧
      ((submission_handler g uid text).submissions ≠ g.submissions →
        g.current_categories.length ≤ count_answer_lines_handlers text) ∧
      (count_answer_lines_main text < g.current_categories.length →
        main_submission_handler g uid text = g) ∧
      ((main_submission_handler g uid text).submissions ≠ g.submissions →
        g.current_categories.length ≤ count_answer_lines_main text) := by
  intro g uid text hcc
  have hneed : needed g = g.current_categories.length := by
    unfold needed
    rw [if_neg]
    intro h0
    exact hcc (List.length_eq_zero.mp h0)
  have hfirst : count_answer_lines_handlers text < g.current_categories.length →
      submission_handler g uid text = g := by
    intro hlt
    unfold submission_handler
    split_ifs with h1 h2 h3 h4 <;> try rfl
    rw [hneed] at h4
    exact absurd hlt h4
  have hfirstm : count_answer_lines_main text < g.current_categories.length →
      main_submission_handler g uid text = g := by
    intro hlt
    unfold main_submission_handler
    split_ifs with h1 h2 h3 h4 <;> try rfl
    rw [hneed] at h4
    exact absurd hlt h4
  refine ⟨hfirst, ?_, hfirstm, ?_⟩
  · intro hdiff
    by_contra hnot
    push_neg at hnot
    exact hdiff (by rw [hfirst hnot])
  · intro hdiff
    by_contra hnot
    push_neg at hnot
    exact hdiff (by rw [hfirstm hnot])

/-- C9 witness: in gRun (two categories), the chat message "hello" has zero
qualifying lines and is ignored by both handler drafts. -/
theorem C9_witness :
    submission_handler gRun 2 ("hello".toList) = gRun ∧
    main_submission_handler gRun 2 ("hello".toList) = gRun := by
  have h := C9_submission_gating gRun 2 ("hello".toList) (by decide)
  exact ⟨h.1 (by decide), h.2.2.1 (by decide)⟩

/-- Two-player round over one category: both answered cat (different
case), player 1 with "Cat" and player 2 with "cat". -/
def parsedW : List (Player × List Str) := [(1, [("Cat".toList)]), (2, [("cat".toList)])]

/-- C3: for every player of a scored round, the round points computed by
the code equal the spec formula — 0 for an invalid or empty slot, 10 for a
valid slot whose normalized form has frequency 1, 5 for a valid slot with
larger frequency, summed over the categories — and a valid slot always has
frequency at least 1 (so the "else 5" branch of the code is exactly the
frequency-greater-than-1 case).  Proved for both run_game drafts. -/
theorem C3_scoring_values :
    ∀ (client : Option AIClient) (mclient : Option CorrectClient)
      (manual : List (Player × Bool)) (parsed : List (Player × List Str))
      (categories : List Str) (letter : Char) (uid : Player) (answers : List Str),
      lookupP parsed uid = some answers →
      (player_round_points client (lookupP manual uid) (per_cat_freq parsed)
          categories letter answers
        = (answers.enum.map (fun p =>
            spec_contrib (slot_valid client (lookupP manual uid) categories letter p.1 p.2)
              (per_cat_freq parsed p.1 (pyLower (pyStrip p.2))))).sum) ∧
      (∀ idx : Nat,
        slot_valid client (lookupP manual uid) categories letter idx
            (answers.getD idx []) = true →
        1 ≤ per_cat_freq parsed idx (pyLower (pyStrip (answers.getD idx [])))) ∧
      (main_player_round_points mclient (lookupP manual uid) (per_cat_freq parsed)
          categories letter answers
        = (answers.enum.map (fun p =>
            spec_contrib (main_slot_valid mclient (lookupP manual uid) categories letter p.1 p.2)
              (per_cat_freq parsed p.1 (pyLower (pyStrip p.2))))).sum) ∧
      (∀ idx : Nat,
        main_slot_valid mclient (lookupP manual uid) categories letter idx
            (answers.getD idx []) = true →
        1 ≤ per_cat_freq parsed idx (pyLower (pyStrip (answers.getD idx [])))) := by
  intro client mclient manual parsed categories letter uid answers hlk
  have hmem : (uid, answers) ∈ parsed := lookupP_mem parsed uid answers hlk
  refine ⟨?_, ?_, ?_, ?_⟩
  · unfold player_round_points
    simp only [answer_contrib_eq_spec]
  · intro idx hvalid
    apply per_cat_freq_pos parsed idx (uid, answers) hmem
    intro h0
    unfold slot_valid at hvalid
    rw [h0] at hvalid
    exact Bool.false_ne_true hvalid
  · unfold main_player_round_points
    simp only [main_answer_contrib_eq_spec]
  · intro idx hvalid
    apply per_cat_freq_pos parsed idx (uid, answers) hmem
    intro h0
    unfold main_slot_valid at hvalid
    rw [h0] at hvalid
    exact Bool.false_ne_true hvalid

/-- C3 witness: the theorem applied to the concrete two-player round
parsedW for player 1 ("Cat" is valid and shares its normalized form with
"cat", so its frequency is at least 1 — here 2). -/
theorem C3_witness :
    (player_round_points none (lookupP ([] : List (Player × Bool)) 1) (per_cat_freq parsedW)
        catsAnimal 'C' [("Cat".toList)]
      = (([("Cat".toList)] : List Str).enum.map (fun p =>
          spec_contrib (slot_valid none (lookupP ([] : List (Player × Bool)) 1)
              catsAnimal 'C' p.1 p.2)
            (per_cat_freq parsedW p.1 (pyLower (pyStrip p.2))))).sum) ∧
    1 ≤ per_cat_freq parsedW 0
        (pyLower (pyStrip (([("Cat".toList)] : List Str).getD 0 []))) := by
  have h := C3_scoring_values none none [] parsedW catsAnimal 'C' 1
    [("Cat".toList)] (by decide)
  exact ⟨h.1, h.2.1 0 (by decide)⟩

/-- C8: cumulative scores never decrease — every entry of the per-round
score map is non-negative (in both run_game drafts), applying a round to
the cumulative score table never lowers any player, a player absent from
the round submissions keeps exactly the old score, and a submitting player
whose slots are all invalid earns exactly 0 round points. -/
theorem C8_scores_monotone :
    ∀ (client : Option AIClient) (manual : List (Player × Bool))
      (parsed : List (Player × List Str)) (categories : List Str) (letter : Char)
      (scores : List (Player × Int)),
      (∀ p ∈ round_scores client manual parsed categories letter, 0 ≤ p.2) ∧
      (∀ mclient : Option CorrectClient, ∀ man : Option Bool, ∀ answers : List Str,
        0 ≤ main_player_round_points mclient man (per_cat_freq parsed)
              categories letter answers) ∧
      (∀ uid : Player,
        scores_get scores uid ≤
          scores_get (apply_round scores
            (round_scores client manual parsed categories letter)) uid) ∧
      (∀ uid : Player, (∀ p ∈ parsed, p.1 ≠ uid) →
        scores_get (apply_round scores
            (round_scores client manual parsed categories letter)) uid
          = scores_get scores uid) ∧
      (∀ (uid : Player) (answers : List Str),
        lookupP parsed uid = some answers →
        (∀ (i : Nat) (a : Str), (i, a) ∈ answers.enum →
          slot_valid client (lookupP manual uid) categories letter i a = false) →
        player_round_points client (lookupP manual uid) (per_cat_freq parsed)
            categories letter answers = 0) := by
  intro client manual parsed categories letter scores
  have hnn : ∀ p ∈ round_scores client manual parsed categories letter, 0 ≤ p.2 := by
    intro p hp
    obtain ⟨q, _, rfl⟩ := List.mem_map.mp hp
    exact player_round_points_nonneg _ _ _ _ _ _
  refine ⟨hnn, ?_, ?_, ?_, ?_⟩
  · intro mclient man answers
    exact main_player_round_points_nonneg _ _ _ _ _ _
  · intro uid
    exact apply_round_get_le _ scores uid hnn
  · intro uid habs
    apply apply_round_get_of_absent
    intro p hp
    obtain ⟨q, hq, rfl⟩ := List.mem_map.mp hp
    exact habs q hq
  · intro uid answers _ hinv
    exact points_zero_of_all_invalid client (lookupP manual uid) (per_cat_freq parsed)
      categories letter answers hinv

/-- C8 witness: applied to the concrete round parsedC1 (player 1 answered
"dog" under letter C, which is invalid) and the score table [(5, 3)]:
player 5 did not submit and keeps score 3, player 1 earns 0 points. -/
theorem C8_witness :
    scores_get (apply_round [(5, (3 : Int))]
        (round_scores none [] parsedC1 catsAnimal 'C')) 5
      = scores_get [(5, (3 : Int))] 5 ∧
    scores_get [(5, (3 : Int))] 1 ≤
      scores_get (apply_round [(5, (3 : Int))]
        (round_scores none [] parsedC1 catsAnimal 'C')) 1 ∧
    player_round_points none (lookupP ([] : List (Player × Bool)) 1) (per_cat_freq parsedC1)
        catsAnimal 'C' [("dog".toList)] = 0 := by
  have h := C8_scores_monotone none [] parsedC1 catsAnimal 'C' [(5, (3 : Int))]
  refine ⟨h.2.2.2.1 5 (by decide), h.2.2.1 1, ?_⟩
  apply h.2.2.2.2 1 [("dog".toList)] (by decide)
  intro i a hmem
  have hia : i = 0 ∧ a = ("dog".toList) := by simpa using hmem
  obtain ⟨h1, h2⟩ := hia
  subst h1
  subst h2
  decide

/-- C10: in the game.py scoring loop the manual admin decision is consulted
only when ai_validate returned false — whenever ai_validate returns true,
the slot contribution is the same under every manual_accept value, so a
recorded admin rejection cannot invalidate the answer.  ai_validate does
return true under the permissive fallbacks: with no configured client, and
when the Oracle call raises, for any answer passing the local letter check. -/
theorem C10_manual_reject_noop :
    (∀ (client : Option AIClient) (freq : Nat → Str → Nat) (categories : List Str)
       (letter : Char) (idx : Nat) (a : Str) (m1 m2 : Option Bool),
       ai_validate client (categories.getD idx []) (pyStrip a) letter = true →
       answer_contrib client m1 freq categories letter idx a
         = answer_contrib client m2 freq categories letter idx a)
    ∧
    (∀ (category : Str) (letter : Char) (c : Char) (rest : Str),
       c.isAlpha = true → c.toUpper = letter.toUpper →
       ai_validate none category (c :: rest) letter = true)
    ∧
    (∀ (f : AIClient) (category : Str) (letter : Char) (c : Char) (rest : Str),
       c.isAlpha = true → c.toUpper = letter.toUpper →
       f category (c :: rest) letter = AIReply.err →
       ai_validate (some f) category (c :: rest) letter = true) := by
  refine ⟨?_, ?_, ?_⟩
  · intro client freq categories letter idx a m1 m2 hai
    unfold answer_contrib
    cases hs : pyStrip a with
    | nil => rfl
    | cons c rest =>
      rw [hs] at hai
      unfold effective_valid
      simp only [List.getD_eq_getElem?_getD] at hai
      simp [hai]
  · intro category letter c rest h1 h2
    simp [ai_validate, h1, h2]
  · intro f category letter c rest h1 h2 h3
    simp [ai_validate, h1, h2, h3]

/-- C10 witness: with no AI client, the answer "Cat" passes ai_validate, and
an admin rejection (manual_accept false) yields the same contribution as no
decision at all; the raising client also accepts. -/
theorem C10_witness :
    answer_contrib none (some false) (per_cat_freq parsedW) catsAnimal 'C' 0 ("Cat".toList)
      = answer_contrib none none (per_cat_freq parsedW) catsAnimal 'C' 0 ("Cat".toList) ∧
    ai_validate none ("Animal".toList) ('C' :: ("at".toList)) 'C' = true ∧
    ai_validate (some clientErr) ("Animal".toList) ('C' :: ("at".toList)) 'C' = true :=
  ⟨C10_manual_reject_noop.1 none (per_cat_freq parsedW) catsAnimal 'C' 0 ("Cat".toList)
      (some false) none (by decide),
   C10_manual_reject_noop.2.1 ("Animal".toList) 'C' 'C' ("at".toList) (by decide) (by decide),
   C10_manual_reject_noop.2.2 clientErr ("Animal".toList) 'C' 'C' ("at".toList)
      (by decide) (by decide) rfl⟩

end Adedonha
